import Mathlib

/-!
Shallow embedding of the snake-game simulation core of `src/main.rs`
(bevy_snake).  Rendering, window and camera code is not modelled; the
embedded functions are the simulation systems: `spawn_food`,
`snake_movement_input`, `snake_movement`, `snake_eating`, `snake_growth`,
`game_over`, together with the data they act on.
-/

namespace BevySnake

/-- `Position` component: an integer grid cell `(x, y)`. -/
structure Position where
  x : Int
  y : Int
deriving DecidableEq

def ARENA_WIDTH : Int := 20
def ARENA_HEIGHT : Int := 20

/-- The four headings of the snake. -/
inductive Direction where
  | Up
  | Down
  | Left
  | Right
deriving DecidableEq

/-- `Direction::opposite`. -/
def Direction.opposite : Direction → Direction
  | .Up => .Down
  | .Down => .Up
  | .Left => .Right
  | .Right => .Left

/-- `SnakeHead` component: current heading and the `moved` flag
(true once a movement tick has consumed the current heading). -/
structure SnakeHead where
  dir : Direction
  moved : Bool
deriving DecidableEq

/-- `all_position()`: every cell of the 20×20 arena, outer loop on `x`,
inner loop on `y`. -/
def all_position : List Position :=
  (List.range 20).flatMap
    (fun (x : Nat) =>
      (List.range 20).map (fun (y : Nat) => ⟨(x : Int), (y : Int)⟩))

/-- `spawn_food`: filter the arena cells down to those equal to no existing
`Position` entity, and pick one of the remaining candidates.  The random
choice of `IteratorRandom::choose` is modelled by the index parameter `k`:
any value of `k` selects one candidate, and `none` is returned exactly when
no candidate is left. -/
def spawn_food (occupied : List Position) (k : Nat) : Option Position :=
  let candidates := all_position.filter (fun pos => decide (pos ∉ occupied))
  candidates[k % candidates.length]?

/-- The head entity spawned by `spawn_snake`: heading `Up`, `moved: false`. -/
def spawn_snake_head : SnakeHead := { dir := Direction.Up, moved := false }

/-- The segment list spawned by `spawn_snake`: the single head cell `(5,5)`. -/
def spawn_snake_body : List Position := [{ x := 5, y := 5 }]

/-- The keyboard state read by `snake_movement_input`. -/
structure Inputs where
  up : Bool
  down : Bool
  left : Bool
  right : Bool

/-- The `if`/`else if` chain of `snake_movement_input` resolving the pressed
arrow keys to a requested direction (falling back to the current heading). -/
def resolve_input (inputs : Inputs) (current : Direction) : Direction :=
  if inputs.up then Direction.Up
  else if inputs.down then Direction.Down
  else if inputs.left then Direction.Left
  else if inputs.right then Direction.Right
  else current

/-- `snake_movement_input`: accept the requested direction only when the
head has `moved` and the request is neither the current heading nor its
opposite; on acceptance clear `moved`. -/
def snake_movement_input (inputs : Inputs) (head : SnakeHead) : SnakeHead :=
  let dir := resolve_input inputs head.dir
  if head.moved = true ∧ dir ≠ head.dir ∧ dir ≠ head.dir.opposite then
    { dir := dir, moved := false }
  else
    head

/-- The head-position update of `snake_movement`'s `match head.dir`. -/
def offset_position (dir : Direction) (p : Position) : Position :=
  match dir with
  | .Up => { p with y := p.y + 1 }
  | .Down => { p with y := p.y - 1 }
  | .Left => { p with x := p.x - 1 }
  | .Right => { p with x := p.x + 1 }

/-- Which of the two `GameOver` sends of `snake_movement` fired. -/
inductive GameOverKind where
  | OutOfBounds
  | SelfCollision
deriving DecidableEq

/-- The boundary condition of `snake_movement` (the source compares both
coordinates against `ARENA_WIDTH`; width and height are both 20). -/
def out_of_bounds (p : Position) : Bool :=
  decide (p.x < 0) || decide (p.x ≥ ARENA_WIDTH) ||
    decide (p.y < 0) || decide (p.y ≥ ARENA_WIDTH)

/-- Output of one `snake_movement` run: the updated head component, the
updated segment positions (head first), the `LastTailPosition` resource,
and the `GameOver` events sent, in sending order. -/
structure MoveOutput where
  head : SnakeHead
  body : List Position
  lastTail : Position
  events : List GameOverKind
deriving DecidableEq

/-- `snake_movement`: snapshot the segment positions, move the head one
cell along the heading, set `moved`, send `GameOver` on the boundary check
and then on the self-collision check against the snapshot, shift every
non-head segment to its predecessor's snapshot position, and record the
snapshot position of the last segment.  The `unwrap` on an empty segment
list is modelled by `none`. -/
def snake_movement (head : SnakeHead) (body : List Position) :
    Option MoveOutput :=
  match body with
  | [] => none
  | headPos :: rest =>
    let segments_positions := headPos :: rest
    let new_head := offset_position head.dir headPos
    let events :=
      (if out_of_bounds new_head then [GameOverKind.OutOfBounds] else []) ++
        (if new_head ∈ segments_positions then [GameOverKind.SelfCollision]
         else [])
    some { head := { dir := head.dir, moved := true }
           body := new_head :: segments_positions.dropLast
           lastTail := segments_positions.getLast (List.cons_ne_nil _ _)
           events := events }

/-- `snake_eating`: despawn every food at the head position; the returned
flag records whether a `GrowthEvent` was sent. -/
def snake_eating (head_position : Position) (foods : List Position) :
    List Position × Bool :=
  (foods.filter (fun p => decide (p ≠ head_position)),
   foods.any (fun p => decide (p = head_position)))

/-- `snake_growth`: when a `GrowthEvent` is pending, spawn one segment at
the `LastTailPosition` resource and append it to the segment list.  The
`unwrap` on an empty resource is modelled by `none`. -/
def snake_growth (growth_fired : Bool) (last_tail_position : Option Position)
    (segments : List Position) : Option (List Position) :=
  if growth_fired then
    match last_tail_position with
    | none => none
    | some p => some (segments ++ [p])
  else
    some segments

/-- The full simulation state: head component, segment positions (head
first), `LastTailPosition` resource, and the positions of the live food
entities. -/
structure GameState where
  head : SnakeHead
  body : List Position
  last_tail_position : Option Position
  food : List Position
deriving DecidableEq

/-- `game_over`: when a `GameOver` event is pending, despawn all food and
all segments and run `spawn_snake` again. -/
def game_over (fired : Bool) (s : GameState) : GameState :=
  if fired then
    { head := spawn_snake_head
      body := spawn_snake_body
      last_tail_position := s.last_tail_position
      food := [] }
  else
    s

/-- The 1500ms `spawn_food` run on the full state: every `Position` entity
(segments and food alike) counts as occupied; a spawned food is appended
to the live food entities. -/
def food_refresh (k : Nat) (s : GameState) : GameState :=
  match spawn_food (s.body ++ s.food) k with
  | some p => { s with food := s.food ++ [p] }
  | none => s

/-- One frame on which the 150ms movement timer fired, in schedule order:
`snake_movement_input`, `snake_movement`, `snake_eating`, `snake_growth`,
`game_over`, and — only when the independent 1500ms timer also fired —
`spawn_food`. -/
def movement_frame (inputs : Inputs) (food_timer : Bool) (k : Nat)
    (s : GameState) : Option GameState :=
  (snake_movement (snake_movement_input inputs s.head) s.body).bind
    fun mv =>
      (mv.body.head?).bind fun new_head_pos =>
        let eaten := snake_eating new_head_pos s.food
        (snake_growth eaten.2 (some mv.lastTail) mv.body).map fun body3 =>
          let s3 : GameState :=
            { head := mv.head
              body := body3
              last_tail_position := some mv.lastTail
              food := eaten.1 }
          let s4 := game_over (!mv.events.isEmpty) s3
          if food_timer then food_refresh k s4 else s4

/-! ### Helper lemmas -/

/-- Unfolding `snake_movement` on a nonempty segment list. -/
theorem snake_movement_cons (head : SnakeHead) (p : Position)
    (rest : List Position) :
    snake_movement head (p :: rest) =
      some { head := { dir := head.dir, moved := true }
             body := offset_position head.dir p :: (p :: rest).dropLast
             lastTail := (p :: rest).getLast (List.cons_ne_nil _ _)
             events :=
               (if out_of_bounds (offset_position head.dir p) then
                 [GameOverKind.OutOfBounds]
                else []) ++
                 (if offset_position head.dir p ∈ p :: rest then
                   [GameOverKind.SelfCollision]
                  else []) } := rfl

/-- Moving one cell always changes the position. -/
theorem offset_position_ne (dir : Direction) (p : Position) :
    offset_position dir p ≠ p := by
  intro h
  have hx := congrArg Position.x h
  have hy := congrArg Position.y h
  cases dir <;> dsimp [offset_position] at hx hy <;> omega

/-- Membership in the arena enumeration, in coordinates. -/
theorem mem_all_position (p : Position) :
    p ∈ all_position ↔ 0 ≤ p.x ∧ p.x < 20 ∧ 0 ≤ p.y ∧ p.y < 20 := by
  constructor
  · intro h
    unfold all_position at h
    obtain ⟨a, ha, h2⟩ := List.mem_flatMap.mp h
    obtain ⟨b, hb, rfl⟩ := List.mem_map.mp h2
    rw [List.mem_range] at ha hb
    refine ⟨?_, ?_, ?_, ?_⟩
    · show (0 : Int) ≤ (a : Int)
      omega
    · show ((a : Int) < 20)
      omega
    · show (0 : Int) ≤ (b : Int)
      omega
    · show ((b : Int) < 20)
      omega
  · rintro ⟨h1, h2, h3, h4⟩
    unfold all_position
    refine List.mem_flatMap.mpr ⟨p.x.toNat, List.mem_range.mpr (by omega),
      List.mem_map.mpr ⟨p.y.toNat, List.mem_range.mpr (by omega), ?_⟩⟩
    show (⟨(p.x.toNat : Int), (p.y.toNat : Int)⟩ : Position) = p
    rw [Int.toNat_of_nonneg h1, Int.toNat_of_nonneg h3]

/-- A spawned food cell is an arena cell outside the occupied set. -/
theorem spawn_food_mem (occupied : List Position) (k : Nat) (c : Position)
    (h : spawn_food occupied k = some c) :
    c ∈ all_position ∧ c ∉ occupied := by
  unfold spawn_food at h
  have hc := List.getElem?_mem h
  rw [List.mem_filter] at hc
  exact ⟨hc.1, by simpa using hc.2⟩

/-- `spawn_food` fails exactly when no arena cell is free. -/
theorem spawn_food_eq_none_iff (occupied : List Position) (k : Nat) :
    spawn_food occupied k = none ↔ ∀ p ∈ all_position, p ∈ occupied := by
  unfold spawn_food
  constructor
  · intro h p hp
    by_contra hc
    have hmem : p ∈ all_position.filter (fun pos => decide (pos ∉ occupied)) :=
      List.mem_filter.mpr ⟨hp, by simpa using hc⟩
    have hlen :
        0 < (all_position.filter (fun pos => decide (pos ∉ occupied))).length :=
      List.length_pos.mpr (List.ne_nil_of_mem hmem)
    rw [List.getElem?_eq_getElem (Nat.mod_lt _ hlen)] at h
    exact Option.some_ne_none _ h
  · intro h
    have hnil : all_position.filter (fun pos => decide (pos ∉ occupied)) = [] :=
      List.filter_eq_nil_iff.mpr (fun a ha => by simpa using h a ha)
    rw [hnil]
    rfl

/-- `snake_growth` never fails when the `LastTailPosition` resource is set. -/
theorem snake_growth_some (growth_fired : Bool) (t : Position)
    (segments : List Position) :
    snake_growth growth_fired (some t) segments =
      some (if growth_fired then segments ++ [t] else segments) := by
  cases growth_fired <;> rfl

/-- The boundary condition of `snake_movement`, in coordinates. -/
theorem out_of_bounds_iff (q : Position) :
    out_of_bounds q = true ↔ q.x < 0 ∨ 20 ≤ q.x ∨ q.y < 0 ∨ 20 ≤ q.y := by
  simp [out_of_bounds, ARENA_WIDTH, or_assoc]

/-- Membership of the self-collision event in a `snake_movement` event
list. -/
theorem selfcollision_mem_events (b : Bool) (P : Prop) [Decidable P] :
    GameOverKind.SelfCollision ∈
        ((if b then [GameOverKind.OutOfBounds] else []) ++
          (if P then [GameOverKind.SelfCollision] else [])) ↔ P := by
  by_cases hP : P <;> cases b <;> simp [hP]

/-- Membership of the boundary event in a `snake_movement` event list. -/
theorem oob_mem_events (b : Bool) (P : Prop) [Decidable P] :
    GameOverKind.OutOfBounds ∈
        ((if b then [GameOverKind.OutOfBounds] else []) ++
          (if P then [GameOverKind.SelfCollision] else [])) ↔ b = true := by
  by_cases hP : P <;> cases b <;> simp [hP]

/-- When the boundary check fires, its event is sent first. -/
theorem oob_head_events (b : Bool) (P : Prop) [Decidable P] (h : b = true) :
    ((if b then [GameOverKind.OutOfBounds] else []) ++
        (if P then [GameOverKind.SelfCollision] else [])).head? =
      some GameOverKind.OutOfBounds := by
  subst h
  by_cases hP : P <;> simp [hP]

/-! ### Claims -/

/-- Claim C3, counterexample: a four-segment snake looped in a square moves
its head onto the cell its tail vacates in the same move; the code emits a
self-collision game over although the new head coincides with no non-head
segment of the post-move body. -/
theorem C3_counterexample :
    snake_movement ⟨Direction.Right, true⟩ [⟨0, 0⟩, ⟨0, 1⟩, ⟨1, 1⟩, ⟨1, 0⟩] =
      some ⟨⟨Direction.Right, true⟩, [⟨1, 0⟩, ⟨0, 0⟩, ⟨0, 1⟩, ⟨1, 1⟩], ⟨1, 0⟩,
        [GameOverKind.SelfCollision]⟩ ∧
    (⟨1, 0⟩ : Position) ∉ [(⟨0, 0⟩ : Position), ⟨0, 1⟩, ⟨1, 1⟩] := by
  decide

/-- Claim C3, amended: a self-collision game over is emitted if and only if
the new head coincides with a non-head segment of the body snapshot taken
before the movement is applied — so the cell just vacated by the tail in
the same movement IS a self-collision. -/
theorem C3_selfcollision_pre_move_body (head : SnakeHead) (p : Position)
    (rest : List Position) (mv : MoveOutput)
    (h : snake_movement head (p :: rest) = some mv) :
    GameOverKind.SelfCollision ∈ mv.events ↔
      offset_position head.dir p ∈ rest := by
  rw [snake_movement_cons] at h
  obtain rfl := Option.some.inj h
  dsimp only
  rw [selfcollision_mem_events]
  rw [List.mem_cons]
  have hne := offset_position_ne head.dir p
  constructor
  · rintro (h1 | h1)
    · exact absurd h1 hne
    · exact h1
  · exact Or.inr

/-- Claim C3, witness for the amended theorem at the looped snake. -/
theorem C3_selfcollision_witness :
    GameOverKind.SelfCollision ∈
        (⟨⟨Direction.Right, true⟩, [⟨1, 0⟩, ⟨0, 0⟩, ⟨0, 1⟩, ⟨1, 1⟩], ⟨1, 0⟩,
          [GameOverKind.SelfCollision]⟩ : MoveOutput).events ↔
      offset_position Direction.Right ⟨0, 0⟩ ∈
        [(⟨0, 1⟩ : Position), ⟨1, 1⟩, ⟨1, 0⟩] :=
  C3_selfcollision_pre_move_body ⟨Direction.Right, true⟩ ⟨0, 0⟩
    [⟨0, 1⟩, ⟨1, 1⟩, ⟨1, 0⟩] _ (by decide)

/-- Claim C4: the heading changes (to the resolved request, clearing
`moved`) exactly when `moved` is set and the request differs from both the
current heading and its opposite; otherwise the head component is
unchanged. -/
theorem C4_set_heading (inputs : Inputs) (head : SnakeHead) :
    (head.moved = true ∧ resolve_input inputs head.dir ≠ head.dir ∧
        resolve_input inputs head.dir ≠ head.dir.opposite →
      snake_movement_input inputs head =
        { dir := resolve_input inputs head.dir, moved := false }) ∧
    (¬(head.moved = true ∧ resolve_input inputs head.dir ≠ head.dir ∧
        resolve_input inputs head.dir ≠ head.dir.opposite) →
      snake_movement_input inputs head = head) := by
  constructor <;> intro h <;> simp only [snake_movement_input] <;>
    [rw [if_pos h]; rw [if_neg h]]

/-- Claim C4, witness: heading Up with `moved` still false, requesting
Down, leaves the heading Up. -/
theorem C4_set_heading_witness :
    snake_movement_input ⟨false, true, false, false⟩ ⟨Direction.Up, false⟩ =
      ⟨Direction.Up, false⟩ :=
  (C4_set_heading ⟨false, true, false, false⟩ ⟨Direction.Up, false⟩).2
    (by decide)

/-- Claim C5: for every snake of length ≥ 1, one `snake_movement` with no
growth keeps the length, moves the head one unit along the heading (Up:
y+1, Down: y−1, Left: x−1, Right: x+1), moves every other segment to its
predecessor's prior position, and sets `moved`. -/
theorem C5_advance (head : SnakeHead) (p : Position) (rest : List Position)
    (mv : MoveOutput) (h : snake_movement head (p :: rest) = some mv) :
    mv.body.length = (p :: rest).length ∧
    mv.body.head? = some
      ⟨p.x + (match head.dir with
          | Direction.Left => -1
          | Direction.Right => 1
          | _ => 0),
        p.y + (match head.dir with
          | Direction.Up => 1
          | Direction.Down => -1
          | _ => 0)⟩ ∧
    (∀ i : Nat, i + 1 < mv.body.length → mv.body[i + 1]? = (p :: rest)[i]?) ∧
    mv.head.moved = true ∧ mv.head.dir = head.dir := by
  rw [snake_movement_cons] at h
  obtain rfl := Option.some.inj h
  dsimp only
  refine ⟨?_, ?_, ?_, rfl, rfl⟩
  · simp
  · cases head.dir <;> simp [offset_position, Int.sub_eq_add_neg]
  · intro i hi
    rw [List.getElem?_cons_succ, List.getElem?_dropLast, if_pos]
    simp only [List.length_cons, List.length_dropLast] at hi ⊢
    omega

/-- Claim C5, witness: from (5,5) heading Up at length 1, one advance puts
the head at (5,6) with the length unchanged. -/
theorem C5_advance_witness :
    ∃ mv : MoveOutput,
      snake_movement ⟨Direction.Up, true⟩ [⟨5, 5⟩] = some mv ∧
        mv.body.length = 1 ∧ mv.body.head? = some ⟨5, 6⟩ ∧
        mv.head.moved = true := by
  have h :=
    C5_advance ⟨Direction.Up, true⟩ ⟨5, 5⟩ []
      ⟨⟨Direction.Up, true⟩, [⟨5, 6⟩], ⟨5, 5⟩, []⟩ (by decide)
  exact ⟨_, by decide, h.1, h.2.1, h.2.2.2.1⟩

/-- Claim C6: after the movement phase an out-of-bounds game over is sent
for exactly the new-head cells with x < 0, x ≥ 20, y < 0 or y ≥ 20, and
when it fires its event precedes any self-collision event. -/
theorem C6_bounds (head : SnakeHead) (p : Position) (rest : List Position)
    (mv : MoveOutput) (h : snake_movement head (p :: rest) = some mv) :
    (GameOverKind.OutOfBounds ∈ mv.events ↔
      ((offset_position head.dir p).x < 0 ∨
        20 ≤ (offset_position head.dir p).x ∨
        (offset_position head.dir p).y < 0 ∨
        20 ≤ (offset_position head.dir p).y)) ∧
    (((offset_position head.dir p).x < 0 ∨
        20 ≤ (offset_position head.dir p).x ∨
        (offset_position head.dir p).y < 0 ∨
        20 ≤ (offset_position head.dir p).y) →
      mv.events.head? = some GameOverKind.OutOfBounds) := by
  rw [snake_movement_cons] at h
  obtain rfl := Option.some.inj h
  dsimp only
  constructor
  · rw [oob_mem_events, out_of_bounds_iff]
  · intro hcond
    exact oob_head_events _ _ ((out_of_bounds_iff _).mpr hcond)

/-- Claim C6, witness: the head at (19,5) advancing Right reaches (20,5),
which is signalled out of bounds, first. -/
theorem C6_bounds_witness :
    ((⟨⟨Direction.Right, true⟩, [⟨20, 5⟩], ⟨19, 5⟩,
        [GameOverKind.OutOfBounds]⟩ : MoveOutput).events).head? =
      some GameOverKind.OutOfBounds :=
  (C6_bounds ⟨Direction.Right, true⟩ ⟨19, 5⟩ [] _ (by decide)).2 (by decide)

/-- Claim C8: after an advance, the recorded last tail position is the cell
the tail occupied before the move, and a growth appends exactly one new
tail segment there, growing the length by one and leaving every other
segment in place. -/
theorem C8_grow_appends (head : SnakeHead) (p : Position)
    (rest : List Position) (mv : MoveOutput) (t : Position)
    (hmv : snake_movement head (p :: rest) = some mv)
    (ht : (p :: rest).getLast? = some t) :
    mv.lastTail = t ∧
    snake_growth true (some mv.lastTail) mv.body = some (mv.body ++ [t]) ∧
    (mv.body ++ [t]).length = mv.body.length + 1 ∧
    (∀ i : Nat, i < mv.body.length → (mv.body ++ [t])[i]? = mv.body[i]?) := by
  rw [snake_movement_cons] at hmv
  obtain rfl := Option.some.inj hmv
  rw [List.getLast?_eq_getLast _ (List.cons_ne_nil p rest)] at ht
  obtain rfl := Option.some.inj ht
  dsimp only
  refine ⟨rfl, ?_, by simp, ?_⟩
  · simpa using snake_growth_some true _ _
  · intro i hi
    exact List.getElem?_append_left hi

/-- Claim C8, witness: a two-segment snake at [(5,5),(5,4)] advancing Up
then growing appends a segment at the vacated tail cell (5,4). -/
theorem C8_grow_appends_witness :
    snake_growth true (some (⟨5, 4⟩ : Position)) [⟨5, 6⟩, ⟨5, 5⟩] =
      some [⟨5, 6⟩, ⟨5, 5⟩, ⟨5, 4⟩] := by
  have h := C8_grow_appends ⟨Direction.Up, true⟩ ⟨5, 5⟩ [⟨5, 4⟩]
    ⟨⟨Direction.Up, true⟩, [⟨5, 6⟩, ⟨5, 5⟩], ⟨5, 4⟩, []⟩ ⟨5, 4⟩
    (by decide) (by decide)
  simpa using h.2.1

/-- Claim C7: on a game over the controller clears all segments and all
food and reinitializes the snake to the single segment (5,5) heading Up,
so play continues. -/
theorem C7_game_over_reset (inputs : Inputs) (k : Nat) (s : GameState)
    (mv : MoveOutput) (s' : GameState)
    (hmv : snake_movement (snake_movement_input inputs s.head) s.body =
      some mv)
    (hev : mv.events ≠ [])
    (hframe : movement_frame inputs false k s = some s') :
    s'.body = [⟨5, 5⟩] ∧ s'.head.dir = Direction.Up ∧
      s'.head.moved = false ∧ s'.food = [] := by
  obtain ⟨q, r, hbody⟩ : ∃ q r, mv.body = q :: r := by
    cases hb : s.body with
    | nil =>
      rw [hb] at hmv
      exact absurd hmv (by simp [snake_movement])
    | cons a l =>
      rw [hb, snake_movement_cons] at hmv
      obtain rfl := Option.some.inj hmv
      exact ⟨_, _, rfl⟩
  have hie : mv.events.isEmpty = false := List.isEmpty_eq_false.mpr hev
  unfold movement_frame at hframe
  rw [hmv] at hframe
  simp only [Option.some_bind] at hframe
  rw [hbody] at hframe
  simp [List.head?_cons, snake_growth_some, hie, game_over] at hframe
  obtain rfl := hframe.symm
  exact ⟨rfl, rfl, rfl, rfl⟩

/-- Claim C7, witness: the head at (19,5) heading Right advances out of
bounds to (20,5); the tick ends with the snake reset to (5,5) heading Up
and no food. -/
theorem C7_game_over_reset_witness :
    (⟨⟨Direction.Up, false⟩, [⟨5, 5⟩], some ⟨19, 5⟩, []⟩ : GameState).body =
        [⟨5, 5⟩] ∧
      (⟨⟨Direction.Up, false⟩, [⟨5, 5⟩], some ⟨19, 5⟩,
          []⟩ : GameState).head.dir = Direction.Up ∧
      (⟨⟨Direction.Up, false⟩, [⟨5, 5⟩], some ⟨19, 5⟩,
          []⟩ : GameState).head.moved = false ∧
      (⟨⟨Direction.Up, false⟩, [⟨5, 5⟩], some ⟨19, 5⟩,
          []⟩ : GameState).food = [] :=
  C7_game_over_reset ⟨false, false, false, false⟩ 0
    ⟨⟨Direction.Right, true⟩, [⟨19, 5⟩], none, [⟨2, 2⟩]⟩
    ⟨⟨Direction.Right, true⟩, [⟨20, 5⟩], ⟨19, 5⟩, [GameOverKind.OutOfBounds]⟩
    ⟨⟨Direction.Up, false⟩, [⟨5, 5⟩], some ⟨19, 5⟩, []⟩
    (by decide) (by decide) (by decide)

set_option maxRecDepth 10000 in
/-- Claim C1, counterexample: the snake at (5,5) heading Up eats the food
at (5,6); the growth phase fires (the body grows to length 2) but no food
placement is requested in that tick, so the tick ends with no food at all
even though free cells remain (food could have been placed, e.g. at
(0,0)). -/
theorem C1_counterexample :
    movement_frame ⟨false, false, false, false⟩ false 0
        ⟨⟨Direction.Up, true⟩, [⟨5, 5⟩], none, [⟨5, 6⟩]⟩ =
      some ⟨⟨Direction.Up, true⟩, [⟨5, 6⟩, ⟨5, 5⟩], some ⟨5, 5⟩, []⟩ ∧
    spawn_food [⟨5, 6⟩, ⟨5, 5⟩] 0 = some ⟨0, 0⟩ := by
  constructor
  · decide
  · decide

/-- Claim C1, amended: a movement tick on which the 1500ms food timer has
not fired never creates food (every food cell at the end of the tick
already existed at its start); the refill instead happens at the next
food-refresh run, and a placed food always differs from every occupied
cell. -/
theorem C1_no_refill (inputs : Inputs) (k : Nat) (s s' : GameState)
    (hframe : movement_frame inputs false k s = some s') :
    (∀ q ∈ s'.food, q ∈ s.food) ∧
    (∀ (occupied : List Position) (j : Nat) (c : Position),
        spawn_food occupied j = some c → c ∉ occupied) := by
  refine ⟨?_, fun occupied j c hc => (spawn_food_mem occupied j c hc).2⟩
  intro q hq
  unfold movement_frame at hframe
  cases hsm : snake_movement (snake_movement_input inputs s.head) s.body with
  | none =>
    rw [hsm] at hframe
    exact absurd hframe (by simp)
  | some mv =>
    rw [hsm] at hframe
    simp only [Option.some_bind] at hframe
    cases hh : mv.body.head? with
    | none =>
      rw [hh] at hframe
      exact absurd hframe (by simp)
    | some nhp =>
      rw [hh] at hframe
      simp only [Option.some_bind, snake_growth_some,
        Option.map_some'] at hframe
      obtain rfl := (Option.some.inj hframe).symm
      cases hie : mv.events.isEmpty with
      | true =>
        simp [hie, game_over, snake_eating] at hq
        exact hq.1
      | false =>
        simp [hie, game_over] at hq

set_option maxRecDepth 10000 in
/-- Claim C1, witness for the amended theorem: a tick that eats nothing
keeps the food at (3,3), and `spawn_food` avoids the occupied cells. -/
theorem C1_no_refill_witness :
    (⟨3, 3⟩ : Position) ∈
        [(⟨3, 3⟩ : Position)] ∧
      (⟨0, 1⟩ : Position) ∉ [(⟨0, 0⟩ : Position), ⟨2, 2⟩] := by
  have h := C1_no_refill ⟨false, false, false, false⟩ 0
    ⟨⟨Direction.Up, true⟩, [⟨5, 5⟩], none, [⟨3, 3⟩]⟩
    ⟨⟨Direction.Up, true⟩, [⟨5, 6⟩], some ⟨5, 5⟩, [⟨3, 3⟩]⟩ (by decide)
  exact ⟨h.1 ⟨3, 3⟩ (by decide), h.2 [⟨0, 0⟩, ⟨2, 2⟩] 0 ⟨0, 1⟩ (by decide)⟩

set_option maxRecDepth 10000 in
/-- Claim C2, counterexample: with the food at (3,3) still active, the
1500ms refresh adds a second food (at (0,0)), so two food cells are active
at once. -/
theorem C2_counterexample :
    (food_refresh 0
        ⟨⟨Direction.Up, true⟩, [⟨5, 5⟩], none, [⟨3, 3⟩]⟩).food =
      [⟨3, 3⟩, ⟨0, 0⟩] := by
  decide

/-- Claim C2, amended: the 1500ms refresh runs unconditionally; it never
replaces or moves an existing food cell (the prior food list is preserved),
and it appends at most one additional food, always at a cell distinct from
every segment and every existing food — so several food cells can be
active at once. -/
theorem C2_refresh_appends (s : GameState) (k : Nat) :
    ∃ t : List Position, (food_refresh k s).food = s.food ++ t ∧
      t.length ≤ 1 ∧ ∀ q ∈ t, q ∉ s.body ∧ q ∉ s.food := by
  unfold food_refresh
  cases h : spawn_food (s.body ++ s.food) k with
  | none => exact ⟨[], by simp, by simp, by simp⟩
  | some c =>
    have hc := (spawn_food_mem _ _ _ h).2
    rw [List.mem_append] at hc
    push_neg at hc
    exact ⟨[c], rfl, by simp, by simpa using hc⟩

/-- Claim C2, witness for the amended theorem at a state with active
food. -/
theorem C2_refresh_appends_witness :
    ∃ t : List Position,
      (food_refresh 0
          ⟨⟨Direction.Up, true⟩, [⟨5, 5⟩], none, [⟨3, 3⟩]⟩).food =
        [⟨3, 3⟩] ++ t ∧
      t.length ≤ 1 ∧
      ∀ q ∈ t, q ∉ [(⟨5, 5⟩ : Position)] ∧ q ∉ [(⟨3, 3⟩ : Position)] :=
  C2_refresh_appends ⟨⟨Direction.Up, true⟩, [⟨5, 5⟩], none, [⟨3, 3⟩]⟩ 0

/-- Claim C9: `spawn_food` never picks an occupied cell, and it returns
`none` exactly when every cell of the 20×20 grid is occupied. -/
theorem C9_place_food :
    (∀ (occupied : List Position) (k : Nat) (c : Position),
        spawn_food occupied k = some c → c ∉ occupied) ∧
    (∀ (occupied : List Position) (k : Nat),
        spawn_food occupied k = none ↔
          ∀ q : Position, 0 ≤ q.x → q.x < 20 → 0 ≤ q.y → q.y < 20 →
            q ∈ occupied) := by
  constructor
  · intro occupied k c h
    exact (spawn_food_mem occupied k c h).2
  · intro occupied k
    rw [spawn_food_eq_none_iff]
    constructor
    · intro h q h1 h2 h3 h4
      exact h q ((mem_all_position q).mpr ⟨h1, h2, h3, h4⟩)
    · intro h q hq
      obtain ⟨h1, h2, h3, h4⟩ := (mem_all_position q).mp hq
      exact h q h1 h2 h3 h4

set_option maxRecDepth 10000 in
/-- Claim C9, witness: with only (0,0) occupied, the spawned food (0,1) is
not an occupied cell. -/
theorem C9_place_food_witness :
    (⟨0, 1⟩ : Position) ∉ [(⟨0, 0⟩ : Position)] :=
  C9_place_food.1 [⟨0, 0⟩] 0 ⟨0, 1⟩ (by decide)

/-- Claim C10: at process start and after every game-over reset the head
has `moved = false`, every heading request on such a head is ignored, and
the first movement of a round goes Up, from (5,5) to (5,6). -/
theorem C10_round_start :
    spawn_snake_head.moved = false ∧
    (∀ s : GameState, (game_over true s).head = spawn_snake_head) ∧
    (∀ (inputs : Inputs) (h : SnakeHead), h.moved = false →
        snake_movement_input inputs h = h) ∧
    (∀ mv : MoveOutput,
        snake_movement spawn_snake_head spawn_snake_body = some mv →
        mv.head.dir = Direction.Up ∧ mv.body.head? = some ⟨5, 6⟩) := by
  refine ⟨rfl, fun s => rfl, ?_, ?_⟩
  · intro inputs h hm
    simp [snake_movement_input, hm]
  · intro mv h
    have hcomp : snake_movement spawn_snake_head spawn_snake_body =
        some ⟨⟨Direction.Up, true⟩, [⟨5, 6⟩], ⟨5, 5⟩, []⟩ := by decide
    rw [hcomp] at h
    obtain rfl := Option.some.inj h
    exact ⟨rfl, rfl⟩

/-- Claim C10, witness: a legal perpendicular request (Left while heading
Up) before the first movement is ignored, and the first movement from the
start state puts the head at (5,6). -/
theorem C10_round_start_witness :
    snake_movement_input ⟨false, false, true, false⟩ ⟨Direction.Up, false⟩ =
        ⟨Direction.Up, false⟩ ∧
      (⟨⟨Direction.Up, true⟩, [⟨5, 6⟩], ⟨5, 5⟩, []⟩ : MoveOutput).head.dir =
          Direction.Up ∧
        (⟨⟨Direction.Up, true⟩, [⟨5, 6⟩], ⟨5, 5⟩,
            []⟩ : MoveOutput).body.head? = some ⟨5, 6⟩ :=
  ⟨C10_round_start.2.2.1 ⟨false, false, true, false⟩ ⟨Direction.Up, false⟩
      rfl,
    C10_round_start.2.2.2 ⟨⟨Direction.Up, true⟩, [⟨5, 6⟩], ⟨5, 5⟩, []⟩
      (by decide)⟩

end BevySnake
